import Mathlib

/-!
Verification of the ucerts certificate lifecycle manager (goten4/ucerts).

This file shallowly embeds the parts of the Go source that the checked
claims are about:

* the PEM encoder/decoder used by the writers (`encoding/pem`, modelled
  line-oriented with a standard base64 codec; PEM headers are not used by
  the program and are not modelled),
* the agent's content-aware writer `WritePemToFile` and the gRPC
  `StoreCertificate` handler with its `validate` step (pkg/agent),
* the key generator `GeneratePrivateKey` / `generateRSAPrivateKey` and the
  key-usage computation of `GenerateCertificate` (pkg/tls/pki.go),
* the request parser's `findExtKeyUsage` enumeration (certificate_request),
* `LoadIssuer` (fs),
* the per-file handler `HandleCertificateRequestFile` of pkg/manager and of
  the coexisting pkg/tls variant, and the scan loop `LoadCertificateRequests`
  together with the ticker-driven per-directory variant.

Go `time.Time` values are modelled as `Int` nanosecond instants:
`t.Before u` is `t < u`, `t.After u` is `t > u`, `t.Add d` is `t + d`.
Byte strings are `List Nat`.  Entropy-dependent key material is abstracted
to its algorithm and parameters (randomness failure is not modelled), and
the SHA-1 digest comparison of the agent writer is modelled as byte
equality of the compared contents (the digest is used by the code purely
as an equality proxy).
-/

namespace UCerts

abbrev Bytes := List Nat

/-- ASCII bytes of a string (all relevant file content is ASCII). -/
def asciiBytes (s : String) : Bytes := s.data.map Char.toNat

/-- Model of `strings.ToLower` restricted to ASCII, which covers every enumerated
token of the program. -/
def goToLower (s : String) : String := String.mk (s.data.map Char.toLower)

/-! ### base64 (standard alphabet), as used by `encoding/pem` -/

/-- The byte of the standard base64 alphabet at index `n < 64`. -/
def b64Byte (n : Nat) : Nat :=
  if n < 26 then 65 + n
  else if n < 52 then 97 + n - 26
  else if n < 62 then 48 + n - 52
  else if n = 62 then 43
  else 47

/-- Index of an alphabet byte, `none` for bytes outside the alphabet. -/
def b64Index (c : Nat) : Option Nat :=
  if 65 ≤ c ∧ c ≤ 90 then some (c - 65)
  else if 97 ≤ c ∧ c ≤ 122 then some (c - 97 + 26)
  else if 48 ≤ c ∧ c ≤ 57 then some (c - 48 + 52)
  else if c = 43 then some 62
  else if c = 47 then some 63
  else none

/-- Standard base64 encoding of a byte string, with `=` (61) padding. -/
def base64Encode : Bytes → Bytes
  | [] => []
  | [a] => [b64Byte (a / 4 % 64), b64Byte (a % 4 * 16), 61, 61]
  | [a, b] => [b64Byte (a / 4 % 64), b64Byte (a % 4 * 16 + b / 16 % 16), b64Byte (b % 16 * 4), 61]
  | a :: b :: c :: rest =>
      b64Byte (a / 4 % 64) :: b64Byte (a % 4 * 16 + b / 16 % 16) ::
      b64Byte (b % 16 * 4 + c / 64 % 4) :: b64Byte (c % 64) :: base64Encode rest

/-- Standard base64 decoding; `none` on bad length, bad characters or
misplaced padding. -/
def base64Decode : Bytes → Option Bytes
  | [] => some []
  | c1 :: c2 :: c3 :: c4 :: rest =>
      match b64Index c1, b64Index c2 with
      | some i1, some i2 =>
        if c3 = 61 ∧ c4 = 61 ∧ rest = [] then
          some [i1 * 4 + i2 / 16]
        else if c4 = 61 ∧ rest = [] then
          match b64Index c3 with
          | some i3 => some [i1 * 4 + i2 / 16, i2 % 16 * 16 + i3 / 4]
          | none => none
        else
          match b64Index c3, b64Index c4, base64Decode rest with
          | some i3, some i4, some tail =>
              some ((i1 * 4 + i2 / 16) :: (i2 % 16 * 16 + i3 / 4) :: (i3 % 4 * 64 + i4) :: tail)
          | _, _, _ => none
      | _, _ => none
  | _ => none

/-! ### encoding/pem -/

/-- A decoded PEM block: type tag and payload bytes (`pem.Block` without
headers, which the program never uses). -/
structure PemBlock where
  type : String
  bytes : Bytes
deriving DecidableEq, Repr

/-- Split a byte string into lines at newline bytes (10); the newline is
consumed.  Auxiliary accumulator version. -/
def splitLinesAux : Bytes → Bytes → List Bytes
  | [], cur => [cur.reverse]
  | 10 :: rest, cur => cur.reverse :: splitLinesAux rest []
  | c :: rest, cur => splitLinesAux rest (c :: cur)

def splitLines (b : Bytes) : List Bytes := splitLinesAux b []

/-- Cut a byte string into chunks of at most 64 bytes, the line width used
by `pem.Encode`. -/
def chunks64 (l : Bytes) : List Bytes :=
  if l = [] then []
  else l.take 64 :: chunks64 (l.drop 64)
termination_by l.length
decreasing_by
  rename_i h
  have hl : 0 < l.length := List.length_pos.mpr h
  simp only [List.length_drop]
  omega

/-- Model of `pem.Encode`: BEGIN line, base64 body wrapped at 64 columns, END line,
each line terminated by a newline. -/
def pemEncode (b : PemBlock) : Bytes :=
  asciiBytes ("-----BEGIN " ++ b.type ++ "-----") ++ [10]
  ++ (chunks64 (base64Encode b.bytes)).foldr (fun line acc => line ++ [10] ++ acc) []
  ++ asciiBytes ("-----END " ++ b.type ++ "-----") ++ [10]

/-- Recognise a `-----BEGIN <type>-----` line and return the type bytes. -/
def parseBeginLine (line : Bytes) : Option Bytes :=
  let pre := asciiBytes "-----BEGIN "
  let suf := asciiBytes "-----"
  if pre.length + suf.length ≤ line.length ∧ line.take pre.length = pre ∧
      line.drop (line.length - suf.length) = suf then
    some ((line.drop pre.length).take (line.length - pre.length - suf.length))
  else none

/-- Collect the base64 body lines up to the matching END line; `none` when
the END line is missing. -/
def collectBody (endLine : Bytes) : List Bytes → Option Bytes
  | [] => none
  | l :: ls =>
      if l = endLine then some []
      else match collectBody endLine ls with
        | some rest => some (l ++ rest)
        | none => none

def bytesToString (b : Bytes) : String := String.mk (b.map Char.ofNat)

/-- Scan lines for the first BEGIN marker and decode the block found there
(`pem.Decode`; the retry-after-a-failed-candidate refinement of the Go
implementation is not needed by any input considered here). -/
def pemDecodeLines : List Bytes → Option PemBlock
  | [] => none
  | l :: ls =>
      match parseBeginLine l with
      | some tb =>
          match collectBody (asciiBytes "-----END " ++ tb ++ asciiBytes "-----") ls with
          | some body =>
              match base64Decode body with
              | some payload => some ⟨bytesToString tb, payload⟩
              | none => none
          | none => none
      | none => pemDecodeLines ls

/-- Model of `pem.Decode`: leading bytes before the first BEGIN marker are skipped;
returns `none` when no well-formed block is present. -/
def pemDecode (b : Bytes) : Option PemBlock := pemDecodeLines (splitLines b)

/-! ### Filesystem model

The only shared mutable state of the program is the filesystem.  A state
holds the contents of every existing file, a set of paths at which
`os.Create` fails (permission errors and the like, the "other write
failures" of the spec), and a counter of the file writes performed so far,
so that "the write is skipped" is observable. -/

structure Fs where
  contents : String → Option Bytes
  createFails : String → Bool
  writes : Nat

/-- Overwrite (create/truncate) a file with new content, counting the write. -/
def Fs.write (fs : Fs) (file : String) (b : Bytes) : Fs :=
  { fs with
    contents := fun p => if p = file then some b else fs.contents p
    writes := fs.writes + 1 }

/-! ### pkg/agent: content-aware writer and StoreCertificate -/

/-- The comparison `sha1sum(a) == sha1sum(b)` of agent/fs.go, modelled as byte equality of
the hashed contents (the code uses the digest only as an equality proxy). -/
def sha1Eq (a b : Bytes) : Bool := a == b

/-- Model of `contentsAreEquals` of agent/fs.go: a file that cannot be read counts as
not equal. -/
def contentsAreEquals (data : Bytes) (file : String) (fs : Fs) : Bool :=
  match fs.contents file with
  | none => false
  | some c => sha1Eq data c

inductive AgentWriteErr
  | invalidPEMBlock
  | createFile
deriving DecidableEq, Repr

structure WriteResult where
  err : Option AgentWriteErr
  fs : Fs

/-- The agent's content-aware `WritePemToFile`: skip entirely when the raw
input equals the current file content; otherwise decode the input as a PEM
block (failing with `ErrInvalidPEMBlock`), then create/truncate the file and
write the re-encoded block.  (`pem.Encode` itself can only fail on a writer
error, which `os.Create` failure already covers in this model.) -/
def agentWritePemToFile (b : Bytes) (file : String) (fs : Fs) : WriteResult :=
  if contentsAreEquals b file fs then ⟨none, fs⟩
  else
    match pemDecode b with
    | none => ⟨some .invalidPEMBlock, fs⟩
    | some blk =>
        if fs.createFails file then ⟨some .createFile, fs⟩
        else ⟨none, fs.write file (pemEncode blk)⟩

/-- The `StoreCertificate` gRPC request message (proto getters: a missing
string field reads as `""`, missing bytes as `[]`). -/
structure StoreRequest where
  publicKeyPath : String
  publicKeyData : Bytes
  privateKeyPath : String
  privateKeyData : Bytes
  caPath : String
  caData : Bytes

inductive StoreErr
  | invalidArgument (msg : String)
  | internal
deriving DecidableEq, Repr

/-- Model of `validate` of agent/agent.go: the five presence checks in order,
returning the first failing check's gRPC InvalidArgument error. -/
def validate (req : StoreRequest) : Option StoreErr :=
  if req.publicKeyPath = "" then some (.invalidArgument "Missing public_key_path")
  else if req.publicKeyData.length = 0 then some (.invalidArgument "Missing public_key_data")
  else if req.privateKeyPath = "" then some (.invalidArgument "Missing private_key_path")
  else if req.privateKeyData.length = 0 then some (.invalidArgument "Missing private_key_data")
  else if req.caPath ≠ "" ∧ req.caData.length = 0 then some (.invalidArgument "Missing ca_data")
  else none

structure StoreResult where
  err : Option StoreErr
  fs : Fs

/-- Map a writer failure for one payload to the gRPC error returned:
`ErrInvalidPEMBlock` becomes an InvalidArgument naming the payload, every
other failure the generic internal error. -/
def mapWriteErr (payloadMsg : String) : AgentWriteErr → StoreErr
  | .invalidPEMBlock => .invalidArgument payloadMsg
  | .createFile => .internal

/-- Model of `StoreCertificate` of agent/agent.go: validate, then write public key,
private key, and (when a CA path was sent) CA payloads in order with the
content-aware writer, stopping at the first failure. -/
def storeCertificate (req : StoreRequest) (fs : Fs) : StoreResult :=
  match validate req with
  | some e => ⟨some e, fs⟩
  | none =>
      let r1 := agentWritePemToFile req.publicKeyData req.publicKeyPath fs
      match r1.err with
      | some e => ⟨some (mapWriteErr "Invalid public_key_data" e), r1.fs⟩
      | none =>
          let r2 := agentWritePemToFile req.privateKeyData req.privateKeyPath r1.fs
          match r2.err with
          | some e => ⟨some (mapWriteErr "Invalid private_key_data" e), r2.fs⟩
          | none =>
              if req.caPath = "" then ⟨none, r2.fs⟩
              else
                let r3 := agentWritePemToFile req.caData req.caPath r2.fs
                match r3.err with
                | some e => ⟨some (mapWriteErr "Invalid ca_data" e), r3.fs⟩
                | none => ⟨none, r3.fs⟩

/-! ### pkg/tls/pki.go: key generation -/

def MinRSAKeySize : Int := 2048
def MaxRSAKeySize : Int := 8192

/-- Generated key material, abstracted to algorithm and parameter (the
entropy-drawn numbers themselves play no role in any claim; randomness
failure of `crypto/rand` is not modelled). -/
inductive GeneratedKey
  | rsaKey (bits : Int)
  | ecdsaKey (size : Int)
  | ed25519Key
deriving DecidableEq, Repr

def GeneratedKey.isRSA : GeneratedKey → Bool
  | .rsaKey _ => true
  | _ => false

/-- Field `req.PrivateKey` of the certificate request (Go `int` sizes modelled as
`Int`, so that negative configured sizes are representable). -/
structure PrivateKeySpec where
  algorithm : String
  size : Int
deriving DecidableEq, Repr

inductive KeyGenCause
  | rsaKeySizeTooWeak
  | rsaKeySizeTooBig
  | unsupportedECDSAKeySize (size : Int)
deriving DecidableEq, Repr

inductive KeyGenErr
  | generateKey (cause : KeyGenCause)
  | unsupportedPrivateKeyAlgorithm (algorithm : String)
deriving DecidableEq, Repr

/-- Model of `generateRSAPrivateKey`: default the size to 2048 when zero, reject
sizes below 2048 / above 8192, otherwise produce an RSA key and a PEM block
tagged `RSA PRIVATE KEY`.  The result carries the PEM type tag of the block
the code builds. -/
def generateRSAPrivateKey (spec : PrivateKeySpec) :
    Except KeyGenCause (GeneratedKey × String) :=
  let keySize := if spec.size = 0 then MinRSAKeySize else spec.size
  if keySize < MinRSAKeySize then .error .rsaKeySizeTooWeak
  else if keySize > MaxRSAKeySize then .error .rsaKeySizeTooBig
  else .ok (.rsaKey keySize, "RSA PRIVATE KEY")

/-- Model of `generateECPrivateKey`: default size 256; only 256/384/521 select a
curve; the PEM block is tagged `EC PRIVATE KEY`. -/
def generateECPrivateKey (spec : PrivateKeySpec) :
    Except KeyGenCause (GeneratedKey × String) :=
  let keySize := if spec.size = 0 then (256 : Int) else spec.size
  if keySize = 256 ∨ keySize = 384 ∨ keySize = 521 then
    .ok (.ecdsaKey keySize, "EC PRIVATE KEY")
  else .error (.unsupportedECDSAKeySize keySize)

/-- Model of `generateEd25519PrivateKey`: size ignored, PKCS8 block tagged
`PRIVATE KEY`. -/
def generateEd25519PrivateKey (_spec : PrivateKeySpec) :
    Except KeyGenCause (GeneratedKey × String) :=
  .ok (.ed25519Key, "PRIVATE KEY")

/-- The algorithm dispatch of `GeneratePrivateKey` (pkg/tls/pki.go):
empty algorithm defaults to `rsa`; the lower-cased name selects the
generator; generation failures are wrapped into `ErrGenerateKey`.  The
subsequent write of the block to `req.OutKeyPath` goes through the
always-overwrite writer and is modelled separately. -/
def generatePrivateKeyCore (spec : PrivateKeySpec) :
    Except KeyGenErr (GeneratedKey × String) :=
  let algorithm := if spec.algorithm = "" then "rsa" else spec.algorithm
  let low := goToLower algorithm
  if low = "rsa" then
    match generateRSAPrivateKey spec with
    | .error c => .error (.generateKey c)
    | .ok r => .ok r
  else if low = "ecdsa" then
    match generateECPrivateKey spec with
    | .error c => .error (.generateKey c)
    | .ok r => .ok r
  else if low = "ed25519" then
    match generateEd25519PrivateKey spec with
    | .error c => .error (.generateKey c)
    | .ok r => .ok r
  else .error (.unsupportedPrivateKeyAlgorithm algorithm)

/-! ### pkg/tls/pki.go: certificate template key usage -/

/- The Go x509 `KeyUsage` bit constants. -/
def KeyUsageDigitalSignature : Nat := 1
def KeyUsageContentCommitment : Nat := 2
def KeyUsageKeyEncipherment : Nat := 4
def KeyUsageDataEncipherment : Nat := 8
def KeyUsageKeyAgreement : Nat := 16
def KeyUsageCertSign : Nat := 32
def KeyUsageCRLSign : Nat := 64
def KeyUsageEncipherOnly : Nat := 128
def KeyUsageDecipherOnly : Nat := 256

/-- The key-usage bitset `GenerateCertificate` puts into the template:
digital signature always; key encipherment added when the generated key is
an RSA key; cert sign added when the request is a CA.  (The template uses
this computed value; `req.KeyUsage` parsed from the descriptor is not
consulted here.) -/
def certificateKeyUsage (isCA : Bool) (key : GeneratedKey) : Nat :=
  let ku := KeyUsageDigitalSignature
  let ku := if key.isRSA then ku ||| KeyUsageKeyEncipherment else ku
  let ku := if isCA then ku ||| KeyUsageCertSign else ku
  ku

/-! ### certificate request parsing: extended key usages -/

/-- The Go x509 `ExtKeyUsage` enumeration values the parser can produce. -/
inductive ExtKeyUsage
  | any | serverAuth | clientAuth | codeSigning | emailProtection
  | ipsecEndSystem | ipsecTunnel | ipsecUser | timeStamping | ocspSigning
  | microsoftServerGatedCrypto | netscapeServerGatedCrypto
  | microsoftCommercialCodeSigning | microsoftKernelCodeSigning
deriving DecidableEq, Repr

/-- Model of `findExtKeyUsage` of certificate_request.go: `switch strings.ToLower(s)`
over the fixed enumeration.  The source's case label for code signing is
the mixed-case literal `"CodeSigning"`, kept verbatim here. -/
def findExtKeyUsage (s : String) : Except Unit ExtKeyUsage :=
  let l := goToLower s
  if l = "any" then .ok .any
  else if l = "server auth" then .ok .serverAuth
  else if l = "client auth" then .ok .clientAuth
  else if l = "CodeSigning" then .ok .codeSigning
  else if l = "email protection" then .ok .emailProtection
  else if l = "ipsec end system" then .ok .ipsecEndSystem
  else if l = "ipsec tunnel" then .ok .ipsecTunnel
  else if l = "ipsec user" then .ok .ipsecUser
  else if l = "time stamping" then .ok .timeStamping
  else if l = "ocsp signing" then .ok .ocspSigning
  else if l = "microsoft server gated crypto" then .ok .microsoftServerGatedCrypto
  else if l = "netscape server gated crypto" then .ok .netscapeServerGatedCrypto
  else if l = "microsoft commercial code signing" then .ok .microsoftCommercialCodeSigning
  else if l = "microsoft kernel code signing" then .ok .microsoftKernelCodeSigning
  else .error ()

/-- The `extKeyUsages` loop of `LoadCertificateRequest`: map every token
through `findExtKeyUsage` in order; on the first failing token return the
wrapped `ErrInvalidExtKeyUsages` error naming that token (and no
`CertificateRequest`). -/
def parseExtKeyUsages : List String → Except String (List ExtKeyUsage)
  | [] => .ok []
  | s :: rest =>
      match findExtKeyUsage s with
      | .error _ => .error s
      | .ok u =>
          match parseExtKeyUsages rest with
          | .error t => .error t
          | .ok us => .ok (u :: us)

/-! ### LoadIssuer (pkg/manager fs / unnamed part_003) -/

/-- Field `req.IssuerPath`: the issuer's public-key and private-key file paths
(both empty when the descriptor has no `issuer.dir`). -/
structure IssuerPath where
  publicKey : String
  privateKey : String
deriving DecidableEq, Repr

/-- The result of `tls.LoadX509KeyPair`: the leaf certificate's DER bytes
(`rootCA.Certificate[0]`) and the private key (abstracted to a handle). -/
structure RawKeyPair where
  certDER : Bytes
  privateKeyId : Nat

/-- A parsed x509 certificate as far as `LoadIssuer` is concerned. -/
structure ParsedCertificate where
  der : Bytes

structure Issuer where
  publicKey : ParsedCertificate
  privateKeyId : Nat

/-- The file/crypto environment `LoadIssuer` runs against:
`loadX509KeyPair` is `tls.LoadX509KeyPair` (`none` = read/parse failure),
`parseCertificate` is `x509.ParseCertificate`. -/
structure IssuerEnv where
  loadX509KeyPair : String → String → Option RawKeyPair
  parseCertificate : Bytes → Option ParsedCertificate

inductive IssuerErr
  | loadIssuerKeyPair
  | parseIssuerCertificate
deriving DecidableEq, Repr

/-- Model of `LoadIssuer`: an empty public-key path or an empty private-key path
yields "no issuer" without error; otherwise the key pair is loaded from the
two paths (failure wraps `ErrLoadIssuerKeyPair`) and its leaf certificate
parsed (failure wraps `ErrParseIssuerCertificate`). -/
def loadIssuer (env : IssuerEnv) (path : IssuerPath) : Except IssuerErr (Option Issuer) :=
  if path.publicKey = "" ∨ path.privateKey = "" then .ok none
  else
    match env.loadX509KeyPair path.publicKey path.privateKey with
    | none => .error .loadIssuerKeyPair
    | some kp =>
        match env.parseCertificate kp.certDER with
        | none => .error .parseIssuerCertificate
        | some c => .ok (some ⟨c, kp.privateKeyId⟩)

/-! ### Per-file handler and scan loop -/

/-- The slice of a loaded `CertificateRequest` the per-file handler reads:
its output certificate path and renewal window, and the issuer paths it
passes to `LoadIssuer`.  Durations are `Int` nanoseconds. -/
structure HandlerRequest where
  outCertPath : String
  renewBefore : Int
  issuerPath : IssuerPath

/-- The existing on-disk certificate as far as the handler reads it. -/
structure OnDiskCert where
  notAfter : Int

/-- Collaborators of `HandleCertificateRequestFile`, each matching one of
the fallible calls the handler makes. -/
structure HandlerEnv where
  extensionOk : String → Bool
  loadCertificateRequest : String → Option HandlerRequest
  loadIssuer : IssuerPath → Except IssuerErr (Option Issuer)
  fileDoesNotExist : String → Bool
  makeParentsDirectories : String → Bool
  loadCertFromFile : String → Option OnDiskCert

/-- The route a single handler invocation takes.  `generate`, `regenerate`
and `renew` all call `GenerateOutFilesFromRequest` (which writes the output
files); the remaining routes return without writing anything. -/
inductive Decision
  | skipExtension
  | loadRequestFailed
  | invalidIssuer
  | mkdirFailed
  | generate
  | regenerate
  | renew
  | noop
deriving DecidableEq, Repr

/-- Model of `HandleCertificateRequestFile` of pkg/manager/manager.go: skip files
with unsupported extensions, load the request and the issuer, generate when
the output certificate is absent, regenerate when it does not parse, renew
when `cert.NotAfter.Before(now.Add(req.RenewBefore))`, else fall through
(no-op). -/
def managerHandleCertificateRequestFile (env : HandlerEnv) (now : Int) (file : String) :
    Decision :=
  if ¬ env.extensionOk file then .skipExtension
  else
    match env.loadCertificateRequest file with
    | none => .loadRequestFailed
    | some req =>
        match env.loadIssuer req.issuerPath with
        | .error _ => .invalidIssuer
        | .ok _ =>
            if env.fileDoesNotExist req.outCertPath then
              if env.makeParentsDirectories req.outCertPath then .generate else .mkdirFailed
            else
              match env.loadCertFromFile req.outCertPath with
              | none => .regenerate
              | some cert =>
                  if cert.notAfter < now + req.renewBefore then .renew else .noop

/-- Model of `HandleCertificateRequestFile` of the coexisting pkg/tls/tls.go variant:
same structure, except that there is no extension pre-check (the request
loader rejects unsupported extensions itself) and the final test is
`cert.NotAfter.After(time.Now())`. -/
def tlsHandleCertificateRequestFile (env : HandlerEnv) (now : Int) (file : String) :
    Decision :=
  match env.loadCertificateRequest file with
  | none => .loadRequestFailed
  | some req =>
      match env.loadIssuer req.issuerPath with
      | .error _ => .invalidIssuer
      | .ok _ =>
          if env.fileDoesNotExist req.outCertPath then
            if env.makeParentsDirectories req.outCertPath then .generate else .mkdirFailed
          else
            match env.loadCertFromFile req.outCertPath with
            | none => .regenerate
            | some cert =>
                if cert.notAfter > now then .renew else .noop

/-- The directory lister `ReadDir` as the scan loops see it. -/
structure ScanEnv where
  readDir : String → Except Unit (List String)

/-- Model of `LoadCertificateRequests` of pkg/manager/manager.go, observed as the
list of files handed to `HandleCertificateRequestFile` in order: the loop
over the configured directories runs inside the function, and a listing
failure executes `return`, ending the whole pass. -/
def managerLoadCertificateRequests (env : ScanEnv) : List String → List String
  | [] => []
  | d :: rest =>
      match env.readDir d with
      | .error _ => []
      | .ok files => files ++ managerLoadCertificateRequests env rest

/-- The per-directory `LoadCertificateRequests(dir)` of pkg/tls/tls.go: a
listing failure logs and returns, handling no file of that directory. -/
def tlsLoadCertificateRequests (env : ScanEnv) (dir : String) : List String :=
  match env.readDir dir with
  | .error _ => []
  | .ok files => files

/-- One pass of the pkg/tls ticker loop (pkg/tls/ticker.go): the caller
iterates the configured directories and invokes the per-directory scan on
each, so one directory's failure does not end the pass. -/
def tickerScanPass (env : ScanEnv) (dirs : List String) : List String :=
  (dirs.map (tlsLoadCertificateRequests env)).flatten

/-! ### Concrete fixtures for the closed theorems

One request descriptor with `renewBefore` of 300 (units are irrelevant), an
output certificate at `out/tls.crt`, no issuer; handler environments in
which that certificate exists and parses with a chosen `NotAfter`; a scan
environment with one unlistable and one listable directory; and small byte
strings exercising the writers. -/

def fixtureRequest : HandlerRequest :=
  { outCertPath := "out/tls.crt", renewBefore := 300, issuerPath := ⟨"", ""⟩ }

def fixtureHandlerEnv (notAfter : Int) : HandlerEnv where
  extensionOk := fun _ => true
  loadCertificateRequest := fun f =>
    if f = "requests/example.yaml" then some fixtureRequest else none
  loadIssuer := fun _ => .ok none
  fileDoesNotExist := fun _ => false
  makeParentsDirectories := fun _ => true
  loadCertFromFile := fun p => if p = "out/tls.crt" then some ⟨notAfter⟩ else none

def fixtureScanEnv : ScanEnv where
  readDir := fun d =>
    if d = "watch/bad" then .error ()
    else if d = "watch/good" then .ok ["watch/good/request.yaml"]
    else .ok []

def fixtureIssuerEnv : IssuerEnv where
  loadX509KeyPair := fun _ _ => none
  parseCertificate := fun _ => none

/-- Bytes that do not decode as a PEM block. -/
def junkBytes : Bytes := asciiBytes "junk"

/-- The canonical encoding of the empty-payload block of type `T`. -/
def canonicalPem : Bytes := asciiBytes "-----BEGIN T-----\n-----END T-----\n"

/-- A valid PEM input that is not its own canonical re-encoding (one junk
line precedes the BEGIN marker, which `pem.Decode` skips). -/
def noncanonicalPem : Bytes := asciiBytes "x\n-----BEGIN T-----\n-----END T-----\n"

/-- An empty filesystem on which every create succeeds. -/
def fsEmpty : Fs := ⟨fun _ => none, fun _ => false, 0⟩

/-- A filesystem whose public-key destination already holds `junkBytes`. -/
def fsWithJunkPublicKey : Fs :=
  ⟨fun p => if p = "remote/tls.crt" then some junkBytes else none, fun _ => false, 0⟩

/-- A store request whose public-key payload is invalid PEM and whose
private-key payload is a valid block; no CA payload. -/
def storeRequestJunkPub : StoreRequest :=
  { publicKeyPath := "remote/tls.crt", publicKeyData := junkBytes
    privateKeyPath := "remote/tls.key", privateKeyData := canonicalPem
    caPath := "", caData := [] }

/-- A store request missing its public-key path. -/
def storeRequestNoPubPath : StoreRequest :=
  { publicKeyPath := "", publicKeyData := junkBytes
    privateKeyPath := "remote/tls.key", privateKeyData := canonicalPem
    caPath := "", caData := [] }

/-! ## Helper lemmas -/

theorem contentsAreEquals_true_iff (b : Bytes) (file : String) (fs : Fs) :
    contentsAreEquals b file fs = true ↔ fs.contents file = some b := by
  cases h : fs.contents file with
  | none => simp [contentsAreEquals, h]
  | some c =>
      simp only [contentsAreEquals, h, sha1Eq, beq_iff_eq, Option.some.injEq]
      exact eq_comm

theorem contentsAreEquals_false (b : Bytes) (file : String) (fs : Fs)
    (h : fs.contents file ≠ some b) : contentsAreEquals b file fs = false := by
  cases hc : contentsAreEquals b file fs with
  | false => rfl
  | true => exact absurd ((contentsAreEquals_true_iff b file fs).mp hc) h

theorem agentWrite_skip {b : Bytes} {file : String} {fs : Fs}
    (h : fs.contents file = some b) :
    agentWritePemToFile b file fs = ⟨none, fs⟩ := by
  have hc := (contentsAreEquals_true_iff b file fs).mpr h
  simp [agentWritePemToFile, hc]

theorem agentWrite_invalid {b : Bytes} {file : String} {fs : Fs}
    (h1 : fs.contents file ≠ some b) (h2 : pemDecode b = none) :
    agentWritePemToFile b file fs = ⟨some .invalidPEMBlock, fs⟩ := by
  have hc := contentsAreEquals_false b file fs h1
  simp [agentWritePemToFile, hc, h2]

theorem agentWrite_createFail {b : Bytes} {file : String} {fs : Fs} {blk : PemBlock}
    (h1 : fs.contents file ≠ some b) (h2 : pemDecode b = some blk)
    (h3 : fs.createFails file = true) :
    agentWritePemToFile b file fs = ⟨some .createFile, fs⟩ := by
  have hc := contentsAreEquals_false b file fs h1
  simp [agentWritePemToFile, hc, h2, h3]

theorem agentWrite_performs_write {b : Bytes} {file : String} {fs : Fs} {blk : PemBlock}
    (h1 : fs.contents file ≠ some b) (h2 : pemDecode b = some blk)
    (h3 : fs.createFails file = false) :
    agentWritePemToFile b file fs = ⟨none, fs.write file (pemEncode blk)⟩ := by
  have hc := contentsAreEquals_false b file fs h1
  simp [agentWritePemToFile, hc, h2, h3]

theorem agentWrite_err_none {b : Bytes} {file : String} {fs : Fs}
    (h : (agentWritePemToFile b file fs).err = none) :
    ((agentWritePemToFile b file fs).fs = fs ∧ fs.contents file = some b)
    ∨ ∃ blk, pemDecode b = some blk ∧ fs.createFails file = false ∧
        (agentWritePemToFile b file fs).fs = fs.write file (pemEncode blk) := by
  by_cases hceq : fs.contents file = some b
  · exact Or.inl ⟨by rw [agentWrite_skip hceq], hceq⟩
  · cases hd : pemDecode b with
    | none => rw [agentWrite_invalid hceq hd] at h; cases h
    | some blk =>
      cases hcf : fs.createFails file with
      | true => rw [agentWrite_createFail hceq hd hcf] at h; cases h
      | false =>
        exact Or.inr ⟨blk, rfl, rfl, by rw [agentWrite_performs_write hceq hd hcf]⟩

theorem fsWrite_createFails (fs : Fs) (file : String) (b : Bytes) (p : String) :
    (fs.write file b).createFails p = fs.createFails p := rfl

theorem fsWrite_contents_self (fs : Fs) (file : String) (b : Bytes) :
    (fs.write file b).contents file = some b := by simp [Fs.write]

theorem store_validate_some {req : StoreRequest} {fs : Fs} {e : StoreErr}
    (h : validate req = some e) : storeCertificate req fs = ⟨some e, fs⟩ := by
  unfold storeCertificate
  rw [h]

/-! ## Claims -/

/-- C1: the claim states that the per-file handler, for an output
certificate that exists and parses, takes the regeneration route iff
`NotAfter` is strictly before `now + RenewBefore`, and otherwise no-ops
without writing.  The pkg/manager handler obeys this, but the coexisting
pkg/tls handler diverges: with `NotAfter = now + RenewBefore + 1` (here
1301 against now = 1000, renewBefore = 300; outside the renewal window, so
the claim demands a no-op) it takes the regeneration route, and with
`NotAfter = now - 100` (an expired certificate, which the claim demands be
renewed) it no-ops, contradicting its own "Expired certificate" log. -/
theorem c1_handler_renew_condition_divergence :
    managerHandleCertificateRequestFile (fixtureHandlerEnv 1301) 1000
        "requests/example.yaml" = .noop
    ∧ tlsHandleCertificateRequestFile (fixtureHandlerEnv 1301) 1000
        "requests/example.yaml" = .renew
    ∧ managerHandleCertificateRequestFile (fixtureHandlerEnv 900) 1000
        "requests/example.yaml" = .renew
    ∧ tlsHandleCertificateRequestFile (fixtureHandlerEnv 900) 1000
        "requests/example.yaml" = .noop :=
  ⟨rfl, rfl, rfl, rfl⟩

/-- C2 counterexample: for a certificate whose `NotAfter` is exactly
`now + renewBefore` (1300 = 1000 + 300), the manager handler's decision is
the no-op route, not the renewal the claim asserts. -/
theorem c2_boundary_counterexample :
    (1300 : Int) = 1000 + fixtureRequest.renewBefore
    ∧ managerHandleCertificateRequestFile (fixtureHandlerEnv 1300) 1000
        "requests/example.yaml" = .noop
    ∧ Decision.noop ≠ Decision.renew :=
  ⟨rfl, rfl, by decide⟩

/-- C2 (amended): for a certificate whose `NotAfter` equals exactly
`now + renewBefore`, the state evaluator's decision is no-op — the renewal
boundary is exclusive, since `NotAfter.Before(now + renewBefore)` is a
strict comparison. -/
theorem c2_boundary_noop (env : HandlerEnv) (now : Int) (file : String)
    (req : HandlerRequest) (i : Option Issuer)
    (hext : env.extensionOk file = true)
    (hreq : env.loadCertificateRequest file = some req)
    (hiss : env.loadIssuer req.issuerPath = .ok i)
    (hex : env.fileDoesNotExist req.outCertPath = false)
    (hcert : env.loadCertFromFile req.outCertPath = some ⟨now + req.renewBefore⟩) :
    managerHandleCertificateRequestFile env now file = .noop := by
  simp [managerHandleCertificateRequestFile, hext, hreq, hiss, hex, hcert]

/-- Witness for C2: the hypotheses of `c2_boundary_noop` hold at the
concrete fixture with `NotAfter = 1300`, `now = 1000`, `renewBefore = 300`. -/
theorem c2_boundary_noop_witness :
    (fixtureHandlerEnv 1300).extensionOk "requests/example.yaml" = true
    ∧ (fixtureHandlerEnv 1300).loadCertificateRequest "requests/example.yaml"
        = some fixtureRequest
    ∧ (fixtureHandlerEnv 1300).loadIssuer fixtureRequest.issuerPath = .ok none
    ∧ (fixtureHandlerEnv 1300).fileDoesNotExist fixtureRequest.outCertPath = false
    ∧ (fixtureHandlerEnv 1300).loadCertFromFile fixtureRequest.outCertPath
        = some ⟨1000 + fixtureRequest.renewBefore⟩
    ∧ managerHandleCertificateRequestFile (fixtureHandlerEnv 1300) 1000
        "requests/example.yaml" = .noop :=
  ⟨rfl, rfl, rfl, rfl, rfl,
    c2_boundary_noop (fixtureHandlerEnv 1300) 1000 "requests/example.yaml"
      fixtureRequest none rfl rfl rfl rfl rfl⟩

/-- C3: for requests with algorithm `rsa`, a zero (unspecified) key size
defaults to 2048; every size in [2048, 8192] succeeds with a PEM block
tagged `RSA PRIVATE KEY`; every nonzero size below 2048 fails with the
wrapped `RSAKeySizeTooWeak`; every size above 8192 fails with the wrapped
`RSAKeySizeTooBig`. -/
theorem c3_rsa_key_size_routing (size : Int) :
    (size = 0 →
      generatePrivateKeyCore ⟨"rsa", size⟩ = .ok (.rsaKey 2048, "RSA PRIVATE KEY"))
    ∧ (2048 ≤ size → size ≤ 8192 →
      generatePrivateKeyCore ⟨"rsa", size⟩ = .ok (.rsaKey size, "RSA PRIVATE KEY"))
    ∧ (size ≠ 0 → size < 2048 →
      generatePrivateKeyCore ⟨"rsa", size⟩ = .error (.generateKey .rsaKeySizeTooWeak))
    ∧ (8192 < size →
      generatePrivateKeyCore ⟨"rsa", size⟩ = .error (.generateKey .rsaKeySizeTooBig)) := by
  have hd : generatePrivateKeyCore ⟨"rsa", size⟩ =
      match generateRSAPrivateKey ⟨"rsa", size⟩ with
      | .error c => .error (.generateKey c)
      | .ok r => .ok r := rfl
  refine ⟨fun h0 => ?_, fun h1 h2 => ?_, fun h1 h2 => ?_, fun h1 => ?_⟩ <;>
    rw [hd] <;>
    simp only [generateRSAPrivateKey, MinRSAKeySize, MaxRSAKeySize] <;>
    split_ifs <;> first | rfl | omega

/-- Witness for C3: the hypotheses of `c3_rsa_key_size_routing` hold at the
concrete sizes 0, 4096, 1024 and 9000. -/
theorem c3_rsa_key_size_routing_witness :
    ((2048 : Int) ≤ 4096 ∧ (4096 : Int) ≤ 8192 ∧
      generatePrivateKeyCore ⟨"rsa", 4096⟩ = .ok (.rsaKey 4096, "RSA PRIVATE KEY"))
    ∧ ((1024 : Int) ≠ 0 ∧ (1024 : Int) < 2048 ∧
      generatePrivateKeyCore ⟨"rsa", 1024⟩ = .error (.generateKey .rsaKeySizeTooWeak))
    ∧ ((8192 : Int) < 9000 ∧
      generatePrivateKeyCore ⟨"rsa", 9000⟩ = .error (.generateKey .rsaKeySizeTooBig))
    ∧ generatePrivateKeyCore ⟨"rsa", 0⟩ = .ok (.rsaKey 2048, "RSA PRIVATE KEY") :=
  ⟨⟨by norm_num, by norm_num,
      (c3_rsa_key_size_routing 4096).2.1 (by norm_num) (by norm_num)⟩,
   ⟨by norm_num, by norm_num,
      (c3_rsa_key_size_routing 1024).2.2.1 (by norm_num) (by norm_num)⟩,
   ⟨by norm_num, (c3_rsa_key_size_routing 9000).2.2.2 (by norm_num)⟩,
   (c3_rsa_key_size_routing 0).1 rfl⟩

/-- C4: in the key-usage bitset `GenerateCertificate` puts into the
template, the digital-signature bit (bit 0, value 1) is always set, the
key-encipherment bit (bit 2, value 4) is set iff the generated private key
is an RSA key, and the cert-sign bit (bit 5, value 32) is set iff the
request's CA flag is true. -/
theorem c4_key_usage_bits (isCA : Bool) (key : GeneratedKey) :
    (certificateKeyUsage isCA key).testBit 0 = true
    ∧ ((certificateKeyUsage isCA key).testBit 2 = true ↔ key.isRSA = true)
    ∧ ((certificateKeyUsage isCA key).testBit 5 = true ↔ isCA = true) := by
  cases key <;> cases isCA <;>
    simp [certificateKeyUsage, GeneratedKey.isRSA, KeyUsageDigitalSignature,
      KeyUsageKeyEncipherment, KeyUsageCertSign] <;> decide

/-- C5: the claim asserts case-insensitive matching of the extended
key-usage enumeration including the token "code signing"; in the source the
switch is over the lower-cased token but the code-signing case label is the
mixed-case literal `"CodeSigning"`, which the lower-cased scrutinee can
never equal, so every casing of code signing is rejected with the
invalid-ext-key-usage error naming the token (the error-naming half of the
claim does hold, as the bogus-token conjunct shows, and other enumerated
tokens do match case-insensitively). -/
theorem c5_code_signing_rejected :
    parseExtKeyUsages ["code signing"] = .error "code signing"
    ∧ findExtKeyUsage "CodeSigning" = .error ()
    ∧ findExtKeyUsage "cOdE sIgNiNg" = .error ()
    ∧ findExtKeyUsage "Server Auth" = .ok .serverAuth
    ∧ parseExtKeyUsages ["server auth", "bogus"] = .error "bogus" :=
  ⟨rfl, rfl, rfl, rfl, rfl⟩

/-- C7: the claim says one directory's listing failure aborts only that
directory's pass.  In pkg/manager/manager.go the loop over the configured
directories runs inside `LoadCertificateRequests` and the failure path
executes `return`, so a listable directory coming after the failing one is
not scanned at all in that pass (no file of it is handled), whereas the
ticker-driven per-directory variant of pkg/tls isolates the failure exactly
as claimed; directories before the failing one are unaffected in both. -/
theorem c7_scan_abort_divergence :
    managerLoadCertificateRequests fixtureScanEnv ["watch/bad", "watch/good"] = []
    ∧ tickerScanPass fixtureScanEnv ["watch/bad", "watch/good"]
        = ["watch/good/request.yaml"]
    ∧ managerLoadCertificateRequests fixtureScanEnv ["watch/good", "watch/bad"]
        = ["watch/good/request.yaml"] :=
  ⟨rfl, rfl, rfl⟩

/-- C6 counterexample: the claim that a payload failing PEM decoding
returns an argument error naming that payload is false when the destination
file already holds exactly those bytes: here the public-key payload
`junkBytes` does not decode as PEM, yet `StoreCertificate` succeeds,
because the content-equality short-circuit skips the payload before PEM
validation. -/
theorem c6_invalid_payload_counterexample :
    pemDecode storeRequestJunkPub.publicKeyData = none
    ∧ validate storeRequestJunkPub = none
    ∧ (storeCertificate storeRequestJunkPub fsWithJunkPublicKey).err = none :=
  ⟨rfl, rfl, rfl⟩

/-- C6 (amended): `StoreCertificate` validates in the fixed order
public_key_path, public_key_data, private_key_path, private_key_data, then
ca_data-when-ca_path-is-present, with exactly the claimed messages for the
first failing check and the filesystem untouched; a payload that fails PEM
decoding *and differs from the destination file's current content* returns
the argument error naming that payload (a payload byte-identical to the
current content is skipped before PEM validation), and every other write
failure (a failing create) returns the generic internal error. -/
theorem c6_store_validation_and_error_mapping (req : StoreRequest) (fs : Fs) :
    (req.publicKeyPath = "" →
      storeCertificate req fs = ⟨some (.invalidArgument "Missing public_key_path"), fs⟩)
    ∧ (req.publicKeyPath ≠ "" → req.publicKeyData = [] →
      storeCertificate req fs = ⟨some (.invalidArgument "Missing public_key_data"), fs⟩)
    ∧ (req.publicKeyPath ≠ "" → req.publicKeyData ≠ [] → req.privateKeyPath = "" →
      storeCertificate req fs = ⟨some (.invalidArgument "Missing private_key_path"), fs⟩)
    ∧ (req.publicKeyPath ≠ "" → req.publicKeyData ≠ [] → req.privateKeyPath ≠ "" →
      req.privateKeyData = [] →
      storeCertificate req fs = ⟨some (.invalidArgument "Missing private_key_data"), fs⟩)
    ∧ (req.publicKeyPath ≠ "" → req.publicKeyData ≠ [] → req.privateKeyPath ≠ "" →
      req.privateKeyData ≠ [] → req.caPath ≠ "" → req.caData = [] →
      storeCertificate req fs = ⟨some (.invalidArgument "Missing ca_data"), fs⟩)
    ∧ (validate req = none → fs.contents req.publicKeyPath ≠ some req.publicKeyData →
      pemDecode req.publicKeyData = none →
      storeCertificate req fs = ⟨some (.invalidArgument "Invalid public_key_data"), fs⟩)
    ∧ (∀ blk, validate req = none →
      fs.contents req.publicKeyPath ≠ some req.publicKeyData →
      pemDecode req.publicKeyData = some blk → fs.createFails req.publicKeyPath = true →
      storeCertificate req fs = ⟨some .internal, fs⟩)
    ∧ (validate req = none →
      (agentWritePemToFile req.publicKeyData req.publicKeyPath fs).err = none →
      (agentWritePemToFile req.publicKeyData req.publicKeyPath fs).fs.contents
          req.privateKeyPath ≠ some req.privateKeyData →
      pemDecode req.privateKeyData = none →
      storeCertificate req fs = ⟨some (.invalidArgument "Invalid private_key_data"),
        (agentWritePemToFile req.publicKeyData req.publicKeyPath fs).fs⟩)
    ∧ (∀ blk, validate req = none →
      (agentWritePemToFile req.publicKeyData req.publicKeyPath fs).err = none →
      (agentWritePemToFile req.publicKeyData req.publicKeyPath fs).fs.contents
          req.privateKeyPath ≠ some req.privateKeyData →
      pemDecode req.privateKeyData = some blk →
      (agentWritePemToFile req.publicKeyData req.publicKeyPath fs).fs.createFails
          req.privateKeyPath = true →
      storeCertificate req fs = ⟨some .internal,
        (agentWritePemToFile req.publicKeyData req.publicKeyPath fs).fs⟩)
    ∧ (validate req = none →
      (agentWritePemToFile req.publicKeyData req.publicKeyPath fs).err = none →
      (agentWritePemToFile req.privateKeyData req.privateKeyPath
          (agentWritePemToFile req.publicKeyData req.publicKeyPath fs).fs).err = none →
      req.caPath ≠ "" →
      (agentWritePemToFile req.privateKeyData req.privateKeyPath
          (agentWritePemToFile req.publicKeyData req.publicKeyPath fs).fs).fs.contents
          req.caPath ≠ some req.caData →
      pemDecode req.caData = none →
      storeCertificate req fs = ⟨some (.invalidArgument "Invalid ca_data"),
        (agentWritePemToFile req.privateKeyData req.privateKeyPath
          (agentWritePemToFile req.publicKeyData req.publicKeyPath fs).fs).fs⟩)
    ∧ (∀ blk, validate req = none →
      (agentWritePemToFile req.publicKeyData req.publicKeyPath fs).err = none →
      (agentWritePemToFile req.privateKeyData req.privateKeyPath
          (agentWritePemToFile req.publicKeyData req.publicKeyPath fs).fs).err = none →
      req.caPath ≠ "" →
      (agentWritePemToFile req.privateKeyData req.privateKeyPath
          (agentWritePemToFile req.publicKeyData req.publicKeyPath fs).fs).fs.contents
          req.caPath ≠ some req.caData →
      pemDecode req.caData = some blk →
      (agentWritePemToFile req.privateKeyData req.privateKeyPath
          (agentWritePemToFile req.publicKeyData req.publicKeyPath fs).fs).fs.createFails
          req.caPath = true →
      storeCertificate req fs = ⟨some .internal,
        (agentWritePemToFile req.privateKeyData req.privateKeyPath
          (agentWritePemToFile req.publicKeyData req.publicKeyPath fs).fs).fs⟩) := by
  refine ⟨fun h1 => ?_, fun h1 h2 => ?_, fun h1 h2 h3 => ?_, fun h1 h2 h3 h4 => ?_,
    fun h1 h2 h3 h4 h5 h6 => ?_, fun hv hne hd => ?_, fun blk hv hne hd hcf => ?_,
    fun hv he hne hd => ?_, fun blk hv he hne hd hcf => ?_,
    fun hv he1 he2 hca hne hd => ?_, fun blk hv he1 he2 hca hne hd hcf => ?_⟩
  · exact store_validate_some (by simp [validate, h1])
  · exact store_validate_some (by simp [validate, h1, h2])
  · exact store_validate_some (by simp [validate, h1, h2, h3, List.length_eq_zero])
  · exact store_validate_some (by simp [validate, h1, h2, h3, h4, List.length_eq_zero])
  · exact store_validate_some (by simp [validate, h1, h2, h3, h4, h5, h6, List.length_eq_zero])
  · simp [storeCertificate, hv, agentWrite_invalid hne hd, mapWriteErr]
  · simp [storeCertificate, hv, agentWrite_createFail hne hd hcf, mapWriteErr]
  · simp [storeCertificate, hv, he, agentWrite_invalid hne hd, mapWriteErr]
  · simp [storeCertificate, hv, he, agentWrite_createFail hne hd hcf, mapWriteErr]
  · simp [storeCertificate, hv, he1, he2, hca, agentWrite_invalid hne hd, mapWriteErr]
  · simp [storeCertificate, hv, he1, he2, hca, agentWrite_createFail hne hd hcf, mapWriteErr]

/-- Witness for C6: the hypotheses of the invalid-public-key conjunct of
`c6_store_validation_and_error_mapping` hold for `storeRequestJunkPub`
against the empty filesystem, where the undecodable payload is rejected
with the claimed message. -/
theorem c6_store_validation_witness :
    validate storeRequestJunkPub = none
    ∧ fsEmpty.contents storeRequestJunkPub.publicKeyPath
        ≠ some storeRequestJunkPub.publicKeyData
    ∧ pemDecode storeRequestJunkPub.publicKeyData = none
    ∧ storeCertificate storeRequestJunkPub fsEmpty
        = ⟨some (.invalidArgument "Invalid public_key_data"), fsEmpty⟩ :=
  ⟨rfl, by simp [fsEmpty], rfl,
    (c6_store_validation_and_error_mapping storeRequestJunkPub fsEmpty).2.2.2.2.2.1
      rfl (by simp [fsEmpty]) rfl⟩

/-- C8 counterexample: `LoadIssuer` returns "no issuer" although only one
of the two paths is empty — the source's guard is a disjunction, not the
conjunction the claim states; the claim would demand a load attempt (here
necessarily failing with `LoadIssuerKeyPair`) for the non-empty
private-key path. -/
theorem c8_one_empty_path_counterexample :
    loadIssuer fixtureIssuerEnv ⟨"", "issuer/ca.key"⟩ = .ok none
    ∧ ("issuer/ca.key" : String) ≠ ""
    ∧ (Except.ok none : Except IssuerErr (Option Issuer)) ≠ .error .loadIssuerKeyPair :=
  ⟨rfl, by decide, by simp⟩

/-- C8 (amended): `LoadIssuer` returns "no issuer" without error exactly
when at least one of the public-key and private-key paths is the empty
string; with both paths non-empty it loads the key pair from the two
paths, a key-pair load failure is the hard error `LoadIssuerKeyPair`, and
a leaf-certificate parse failure is the hard error
`ParseIssuerCertificate`. -/
theorem c8_load_issuer_characterization (env : IssuerEnv) (path : IssuerPath) :
    (path.publicKey = "" ∨ path.privateKey = "" → loadIssuer env path = .ok none)
    ∧ (loadIssuer env path = .ok none → path.publicKey = "" ∨ path.privateKey = "")
    ∧ (path.publicKey ≠ "" → path.privateKey ≠ "" →
        env.loadX509KeyPair path.publicKey path.privateKey = none →
        loadIssuer env path = .error .loadIssuerKeyPair)
    ∧ (∀ kp, path.publicKey ≠ "" → path.privateKey ≠ "" →
        env.loadX509KeyPair path.publicKey path.privateKey = some kp →
        env.parseCertificate kp.certDER = none →
        loadIssuer env path = .error .parseIssuerCertificate)
    ∧ (∀ kp c, path.publicKey ≠ "" → path.privateKey ≠ "" →
        env.loadX509KeyPair path.publicKey path.privateKey = some kp →
        env.parseCertificate kp.certDER = some c →
        loadIssuer env path = .ok (some ⟨c, kp.privateKeyId⟩)) := by
  refine ⟨fun h => ?_, fun h => ?_, fun h1 h2 hk => ?_, fun kp h1 h2 hk hp => ?_,
    fun kp c h1 h2 hk hp => ?_⟩
  · unfold loadIssuer
    rw [if_pos h]
  · by_cases h1 : path.publicKey = "" ∨ path.privateKey = ""
    · exact h1
    · exfalso
      unfold loadIssuer at h
      rw [if_neg h1] at h
      cases hk : env.loadX509KeyPair path.publicKey path.privateKey with
      | none => rw [hk] at h; simp at h
      | some kp =>
        rw [hk] at h
        cases hp : env.parseCertificate kp.certDER with
        | none => simp [hp] at h
        | some c => simp [hp] at h
  · unfold loadIssuer
    rw [if_neg (by simp [h1, h2]), hk]
  · unfold loadIssuer
    rw [if_neg (by simp [h1, h2]), hk]
    simp [hp]
  · unfold loadIssuer
    rw [if_neg (by simp [h1, h2]), hk]
    simp [hp]

/-- Witness for C8: the hypotheses of the load-failure conjunct of
`c8_load_issuer_characterization` hold at two non-empty paths against an
environment that cannot load any key pair. -/
theorem c8_load_issuer_characterization_witness :
    ("issuer/ca.crt" : String) ≠ ""
    ∧ ("issuer/ca.key" : String) ≠ ""
    ∧ fixtureIssuerEnv.loadX509KeyPair "issuer/ca.crt" "issuer/ca.key" = none
    ∧ loadIssuer fixtureIssuerEnv ⟨"issuer/ca.crt", "issuer/ca.key"⟩
        = .error .loadIssuerKeyPair :=
  ⟨by decide, by decide, rfl,
    (c8_load_issuer_characterization fixtureIssuerEnv
        ⟨"issuer/ca.crt", "issuer/ca.key"⟩).2.2.1 (by decide) (by decide) rfl⟩

/-- C9 counterexample: calling the content-aware writer twice in succession
with the byte-identical input `noncanonicalPem` does not skip the second
write: the first call persists only the canonical encoding of the decoded
block, which differs from the raw input, so the content-equality
short-circuit fails and the second call rewrites the file (write counter
reaches 2), although the file's content is unchanged. -/
theorem c9_second_call_rewrites_counterexample :
    (agentWritePemToFile noncanonicalPem "out.pem" fsEmpty).err = none
    ∧ (agentWritePemToFile noncanonicalPem "out.pem" fsEmpty).fs.writes = 1
    ∧ (agentWritePemToFile noncanonicalPem "out.pem"
        (agentWritePemToFile noncanonicalPem "out.pem" fsEmpty).fs).err = none
    ∧ (agentWritePemToFile noncanonicalPem "out.pem"
        (agentWritePemToFile noncanonicalPem "out.pem" fsEmpty).fs).fs.writes = 2
    ∧ (agentWritePemToFile noncanonicalPem "out.pem"
        (agentWritePemToFile noncanonicalPem "out.pem" fsEmpty).fs).fs.contents "out.pem"
      = (agentWritePemToFile noncanonicalPem "out.pem" fsEmpty).fs.contents "out.pem" :=
  ⟨rfl, rfl, rfl, rfl, rfl⟩

/-- C9 (amended): the content-aware writer is idempotent at the level of
file contents: after a successful call, a second call with the same input
succeeds and leaves every file's content unchanged, and the write is
skipped entirely exactly when the input equals the destination's current
content (in particular whenever the input is the canonical encoding of its
block); an input that decodes as PEM and differs from the current content
performs exactly one rewrite; an input that does not decode as PEM and
differs from the current content fails with `InvalidPEMBlock` and writes
nothing. -/
theorem c9_writer_idempotence (b : Bytes) (file : String) (fs : Fs) :
    (fs.contents file = some b → agentWritePemToFile b file fs = ⟨none, fs⟩)
    ∧ (∀ blk, fs.contents file ≠ some b → pemDecode b = some blk →
        fs.createFails file = false →
        (agentWritePemToFile b file fs).err = none
        ∧ (agentWritePemToFile b file fs).fs.writes = fs.writes + 1
        ∧ (agentWritePemToFile b file fs).fs.contents file = some (pemEncode blk))
    ∧ (fs.contents file ≠ some b → pemDecode b = none →
        agentWritePemToFile b file fs = ⟨some .invalidPEMBlock, fs⟩)
    ∧ ((agentWritePemToFile b file fs).err = none →
        (agentWritePemToFile b file (agentWritePemToFile b file fs).fs).err = none
        ∧ ∀ p, (agentWritePemToFile b file
            (agentWritePemToFile b file fs).fs).fs.contents p
          = (agentWritePemToFile b file fs).fs.contents p) := by
  refine ⟨fun h => agentWrite_skip h, fun blk h1 h2 h3 => ?_,
    fun h1 h2 => agentWrite_invalid h1 h2, fun h => ?_⟩
  · rw [agentWrite_performs_write h1 h2 h3]
    exact ⟨rfl, rfl, by simp [Fs.write]⟩
  · rcases agentWrite_err_none h with ⟨hfs, hcontents⟩ | ⟨blk, hd, hcf, hfs⟩
    · rw [hfs, agentWrite_skip hcontents]
      exact ⟨rfl, fun p => rfl⟩
    · by_cases hb : (agentWritePemToFile b file fs).fs.contents file = some b
      · rw [agentWrite_skip hb]
        exact ⟨rfl, fun p => rfl⟩
      · have hcf2 : (agentWritePemToFile b file fs).fs.createFails file = false := by
          rw [hfs]; exact hcf
        rw [agentWrite_performs_write hb hd hcf2]
        refine ⟨rfl, fun p => ?_⟩
        by_cases hp : p = file
        · subst hp
          rw [hfs]
          simp [Fs.write]
        · simp [Fs.write, hp]

/-- Witness for C9: the hypotheses of the rewrite conjunct of
`c9_writer_idempotence` hold at `noncanonicalPem` against the empty
filesystem (the input decodes to the empty block of type `T`, differs from
the absent file, and create succeeds). -/
theorem c9_writer_idempotence_witness :
    fsEmpty.contents "out.pem" ≠ some noncanonicalPem
    ∧ pemDecode noncanonicalPem = some ⟨"T", []⟩
    ∧ fsEmpty.createFails "out.pem" = false
    ∧ (agentWritePemToFile noncanonicalPem "out.pem" fsEmpty).err = none
    ∧ (agentWritePemToFile noncanonicalPem "out.pem" fsEmpty).fs.writes
        = fsEmpty.writes + 1
    ∧ (agentWritePemToFile noncanonicalPem "out.pem" fsEmpty).fs.contents "out.pem"
        = some (pemEncode ⟨"T", []⟩) := by
  have h := (c9_writer_idempotence noncanonicalPem "out.pem" fsEmpty).2.1
    ⟨"T", []⟩ (by simp [fsEmpty]) rfl rfl
  exact ⟨by simp [fsEmpty], rfl, rfl, h.1, h.2.1, h.2.2⟩

/-- C10: `StoreCertificate` runs all presence validation before attempting
any write: a request rejected by `validate` returns that error with the
filesystem completely unchanged, and every validation error is one of the
five "Missing ..." InvalidArgument messages. -/
theorem c10_no_write_on_validation_error (req : StoreRequest) (fs : Fs) (e : StoreErr)
    (h : validate req = some e) :
    storeCertificate req fs = ⟨some e, fs⟩
    ∧ ∃ msg, e = .invalidArgument msg ∧
        msg ∈ ["Missing public_key_path", "Missing public_key_data",
               "Missing private_key_path", "Missing private_key_data",
               "Missing ca_data"] := by
  refine ⟨store_validate_some h, ?_⟩
  unfold validate at h
  split_ifs at h <;> injection h with h <;> exact ⟨_, h.symm, by simp⟩

/-- Witness for C10: the hypothesis of `c10_no_write_on_validation_error`
holds for the request missing its public-key path. -/
theorem c10_no_write_on_validation_error_witness :
    validate storeRequestNoPubPath = some (.invalidArgument "Missing public_key_path")
    ∧ storeCertificate storeRequestNoPubPath fsEmpty
        = ⟨some (.invalidArgument "Missing public_key_path"), fsEmpty⟩ :=
  ⟨rfl,
    (c10_no_write_on_validation_error storeRequestNoPubPath fsEmpty
      (.invalidArgument "Missing public_key_path") rfl).1⟩

end UCerts
